import Mathlib

/-!
Verification of the caddyvault storage adapter (`vaultstorage.go`).

The adapter translates the certmagic storage contract (List, Load, Store,
Exists, Stat, Lock, Unlock, Delete) onto a Vault KV-v2 HTTP backend.  The
HTTP/JSON plumbing lives in the repository's `utils` package, which is not
part of the core under verification; following the spec's §4.1 contract we
embed it as an abstract `Backend` of four primitive calls returning the
normalized `Result` shape (payload map, metadata, child segments, error
strings).  Each adapter operation is embedded as a pure function of the
backend that returns both its Go return value and the trace of backend
calls it performed, in order.  A Go panic (the unchecked type assertion
`res.Data.Data[key].(string)`) is embedded as `none` in an `Option` result.
Byte strings of Go are embedded as Lean `String`s; `len` of a Go string is
the UTF-8 byte size.  The RFC 3339 timestamp parser of the `time` package
is external to the repository, so a record's creation timestamp is embedded
directly as its parse outcome (`some unixSeconds`, or `none` for a parse
failure), and `time.Now().Unix()` as an explicit `now : Int` parameter.
-/

/-- A JSON value found in a record's payload mapping (`map[string]interface{}`
in Go).  The adapter only ever reads string payloads; any other JSON shape is
collapsed into `other`, on which the Go type assertion `.(string)` panics. -/
inductive JValue where
  | str : String → JValue
  | other : JValue
deriving DecidableEq

/-- Version metadata of a KV-v2 record: the creation timestamp (embedded as
its RFC 3339 parse outcome, in Unix seconds) and the soft-delete flag. -/
structure VMetadata where
  createdTime : Option Int
  destroyed : Bool
deriving DecidableEq

/-- The `Data` field of the normalized backend result: payload mapping,
child path segments (for metadata listing), and version metadata. -/
structure ResData where
  data : List (String × JValue)
  keys : List String
  metadata : VMetadata
deriving DecidableEq

/-- Normalized backend response shape: a `Data` part and a list of
backend-reported error strings (`Errors`). -/
structure Result where
  data : ResData
  errors : List String
deriving DecidableEq

/-- Write options of a KV-v2 request; `cas = 0` requests create-only. -/
structure Options where
  cas : Nat
deriving DecidableEq

/-- Modelled from the spec: the JSON body of a KV-v2 write request as built
by `Store` and `lockSystem`.  `Store` sends only a `Data` mapping (plain
write, options omitted); `lockSystem` additionally sends `Options{Cas: 0}`
(create-only precondition).  We keep the request structured rather than
JSON-marshalled, since the marshaller lives outside the core. -/
structure Request where
  options : Option Options
  data : List (String × String)
deriving DecidableEq

/-- An error value returned by an adapter operation: the distinguished
`os.ErrNotExist` sentinel (compared with `==` by `Stat`), or an error
message built with `errors.New`. -/
inductive StorageErr where
  | notExist : StorageErr
  | msg : String → StorageErr
deriving DecidableEq

/-- One backend call performed by the adapter, used for call traces:
`queryStore`/`listStore` are reads, `loadStore` is a write (carrying the
request body), `deleteStore` is a removal. -/
inductive VAction where
  | queryStore : String → VAction
  | listStore : String → VAction
  | loadStore : String → Request → VAction
  | deleteStore : String → VAction
deriving DecidableEq

/-- A trace of backend calls, in the order the adapter performed them. -/
abbrev Trace : Type := List VAction

/-- Does the action modify backend state (a write or a removal)? -/
def VAction.isWrite : VAction → Bool
  | .queryStore _ => false
  | .listStore _ => false
  | .loadStore _ _ => true
  | .deleteStore _ => false

/-- Modelled from the spec: the four primitive calls of the `utils` backend
client (`QueryStore`, `ListStore`, `LoadStore`, `DeleteStore`), each one
network round trip.  `LoadStore` and `DeleteStore` also return the Go-level
transport error (`nil` embedded as `none`).  Per §4.1 the client never
raises: HTTP failures surface in the `errors` field. -/
structure Backend where
  query : String → Result
  listStore : String → Result
  loadStore : String → Request → Result × Option StorageErr
  deleteStore : String → Result × Option StorageErr

/-- The `certmagic.KeyInfo` struct returned by `Stat`. -/
structure KeyInfo where
  key : String
  isTerminal : Bool
  size : Nat
  modified : Int
deriving DecidableEq

/-- Unix seconds of Go's zero `time.Time` (January 1, year 1 UTC), the
`Modified` value produced when timestamp parsing fails. -/
def zeroTimeUnix : Int := -62135596800

/-- Default store path segment (`defaultPrefix = "caddycerts"` in the
source). -/
def defaultStorePfx : String := "caddycerts"

/-- Axis segment for value storage (`dataURL` in the source). -/
def dataURL : String := "data"

/-- Axis segment for metadata/deletion (`metaURL` in the source). -/
def metaURL : String := "metadata"

/-- The adapter's configuration (`VaultStorage` struct): backend address,
store path (Go field `Prefix`, embedded as `pfx`), and token. -/
structure VaultStorage where
  api : String
  pfx : String
  token : String

/-- `strings.Index(hay, needle) >= 0`: does `needle` occur as a contiguous
substring of `hay` (embedded on character lists)? -/
def containsSeq : List Char → List Char → Bool
  | [], needle => needle.isPrefixOf []
  | c :: t, needle => needle.isPrefixOf (c :: t) || containsSeq t needle

/-- `strings.Index(hay, needle) >= 0` on strings. -/
def strContains (hay needle : String) : Bool :=
  containsSeq hay.data needle.data

/-- `VaultStorage.buildURL`: base address, literal version segment, the
configured store path (default when unset), the axis, and optionally the
key. -/
def VaultStorage.buildURL (vs : VaultStorage) (u : String) (key : Option String) : String :=
  let pref := if vs.pfx = "" then defaultStorePfx else vs.pfx
  let ur := vs.api ++ "/v1/" ++ pref ++ "/" ++ u ++ "/"
  match key with
  | some k => ur ++ k
  | none => ur

/-- `queryPath`: one `QueryStore` read at `url ++ pfx`; the result is the
list of keys of the returned payload mapping, paired with the call trace. -/
def queryPath (b : Backend) (url pfx : String) : List String × Trace :=
  ((b.query (url ++ pfx)).data.data.map Prod.fst, [VAction.queryStore (url ++ pfx)])

/-- Runs `f` over the list left to right, collecting the results in order
and propagating `none` (used to embed the result-appending `for` loop of
`listPath`). -/
def optionMapList {α β : Type} (f : α → Option β) : List α → Option (List β)
  | [] => some []
  | a :: l =>
    match f a with
    | none => none
    | some b =>
      match optionMapList f l with
      | none => none
      | some bs => some (b :: bs)

/-- `listPath`: recursive hierarchical listing.  Collects `queryPath` at the
current prefix, then recurses into each child segment returned by
`ListStore`, threading `listurl ++ pfx` and `loadurl ++ pfx` as the new
bases and `"/" ++ path` as the new prefix.  The Go recursion has no
intrinsic termination argument, so the embedding takes a fuel parameter;
`none` means the fuel ran out before the recursion ended. -/
def listPath (b : Backend) : Nat → String → String → String → Option (List String × Trace)
  | 0, _, _, _ => none
  | Nat.succ fuel, listurl, loadurl, pfx =>
    let q := queryPath b loadurl pfx
    let res := b.listStore (listurl ++ pfx)
    match optionMapList
        (fun path => listPath b fuel (listurl ++ pfx) (loadurl ++ pfx) ("/" ++ path))
        res.data.keys with
    | none => none
    | some rest =>
      some (q.1 ++ (rest.map Prod.fst).flatten,
            q.2 ++ VAction.listStore (listurl ++ pfx) :: (rest.map Prod.snd).flatten)

/-- `VaultStorage.List`: dispatches to `listPath` when recursive, otherwise
to `queryPath`; an empty sequence is converted to `os.ErrNotExist`.  The Go
return pair `([]string, error)` is embedded as `List String × Option
StorageErr`; the outer `Option` is the fuel artifact of `listPath` (the
non-recursive branch is always `some`). -/
def VaultStorage.List (b : Backend) (fuel : Nat) (vs : VaultStorage) (pfx : String)
    (recursive : Bool) : Option (List String × Option StorageErr) × Trace :=
  match (if recursive then
           listPath b fuel (vs.buildURL metaURL none) (vs.buildURL dataURL none) pfx
         else
           some (queryPath b (vs.buildURL dataURL none) pfx)) with
  | none => (none, [])
  | some (l, tr) =>
    (some (l, if l.length = 0 then some StorageErr.notExist else none), tr)

/-- `VaultStorage.Load`: one read at the data path; an empty payload mapping
yields `os.ErrNotExist`, otherwise the payload is the unchecked string cast
of `res.Data.Data[key]` (`none` embeds the Go panic when the entry is
missing or not a string). -/
def VaultStorage.Load (b : Backend) (vs : VaultStorage) (key : String) :
    Option (Except StorageErr String) × Trace :=
  let url := vs.buildURL dataURL (some key)
  let res := b.query url
  (if res.data.data.length = 0 then
     some (Except.error StorageErr.notExist)
   else
     match res.data.data.lookup key with
     | some (JValue.str s) => some (Except.ok s)
     | _ => none,
   [VAction.queryStore url])

/-- `VaultStorage.Store`: writes `{data: {key: value}}` (no options, plain
overwrite) to the data path; a backend-reported error is wrapped as
`"Failed to store, error: " ++ Errors[0]`, otherwise the transport error is
returned. -/
def VaultStorage.Store (b : Backend) (vs : VaultStorage) (key value : String) :
    Option StorageErr × Trace :=
  let url := vs.buildURL dataURL (some key)
  let req : Request := ⟨none, [(key, value)]⟩
  let pr := b.loadStore url req
  (match pr.1.errors with
   | e :: _ => some (StorageErr.msg ("Failed to store, error: " ++ e))
   | [] => pr.2,
   [VAction.loadStore url req])

/-- `VaultStorage.Exists`: one read at the data path; true iff the payload
mapping is non-empty and the record is not destroyed. -/
def VaultStorage.Exists (b : Backend) (vs : VaultStorage) (key : String) :
    Bool × Trace :=
  let url := vs.buildURL dataURL (some key)
  let res := b.query url
  (decide (0 < res.data.data.length) && !res.data.metadata.destroyed,
   [VAction.queryStore url])

/-- `VaultStorage.Stat`: reads the data path, runs a non-recursive `List` at
the key, parses the creation timestamp, and builds a `certmagic.KeyInfo`
whose `IsTerminal` is `err == os.ErrNotExist` from that `List` call and
whose `Size` is the byte length of the unchecked string cast of
`res.Data.Data[key]` (`none` embeds that panic).  The timestamp parse error,
if any, is returned alongside the populated struct. -/
def VaultStorage.Stat (b : Backend) (vs : VaultStorage) (key : String) :
    Option (KeyInfo × Option StorageErr) × Trace :=
  let url := vs.buildURL dataURL (some key)
  let res := b.query url
  match VaultStorage.List b 0 vs key false with
  | (none, ltr) => (none, VAction.queryStore url :: ltr)
  | (some (_, err), ltr) =>
    let modified := match res.data.metadata.createdTime with
      | some t => t
      | none => zeroTimeUnix
    let merror : Option StorageErr := match res.data.metadata.createdTime with
      | some _ => none
      | none => some (StorageErr.msg "time parse error")
    (match res.data.data.lookup key with
     | some (JValue.str s) =>
       some (⟨key, decide (err = some StorageErr.notExist), s.utf8ByteSize, modified⟩, merror)
     | _ => none,
     VAction.queryStore url :: ltr)

/-- `VaultStorage.Delete`: removes the metadata path (destroying the key and
all versions); a backend-reported error is wrapped as
`"Failed to delete" ++ Errors[0]`, otherwise the transport error is
returned. -/
def VaultStorage.Delete (b : Backend) (vs : VaultStorage) (key : String) :
    Option StorageErr × Trace :=
  let url := vs.buildURL metaURL (some key)
  let pr := b.deleteStore url
  (match pr.1.errors with
   | e :: _ => some (StorageErr.msg ("Failed to delete" ++ e))
   | [] => pr.2,
   [VAction.deleteStore url])

/-- `VaultStorage.Unlock`: appends `".lock"` when `strings.Index(key,
".lock") < 0` (i.e. when `".lock"` occurs nowhere in the key), then
deletes that record. -/
def VaultStorage.Unlock (b : Backend) (vs : VaultStorage) (key : String) :
    Option StorageErr × Trace :=
  let k := if strContains key ".lock" then key else key ++ ".lock"
  VaultStorage.Delete b vs k

/-- `lockSystem`: writes `{options: {cas: 0}, data: {key: "locked"}}` (a
create-only write) at `lockPath`; a backend-reported error is wrapped as
`"Failed to lock: " ++ Errors[0]`, otherwise the transport error is
returned. -/
def lockSystem (b : Backend) (key lockPath : String) : Option StorageErr × Trace :=
  let postBody : Request := ⟨some ⟨0⟩, [(key, "locked")]⟩
  let pr := b.loadStore lockPath postBody
  (match pr.1.errors with
   | e :: _ => some (StorageErr.msg ("Failed to lock: " ++ e))
   | [] => pr.2,
   [VAction.loadStore lockPath postBody])

/-- `VaultStorage.Lock`: computes the lock key `key ++ ".lock"`; when a lock
record `Exists`, `Stat`s it: a fresh record (age at most 60 seconds) yields
the error `"Lock already exists"`, a stale one is force-`Unlock`ed (result
discarded) before falling through; otherwise (and after a takeover) the
create-only `lockSystem` write is performed and its result returned.  The
outer `Option` embeds a panic propagated from `Stat`. -/
def VaultStorage.Lock (b : Backend) (now : Int) (vs : VaultStorage) (key : String) :
    Option (Option StorageErr) × Trace :=
  let k := key ++ ".lock"
  let ex := VaultStorage.Exists b vs k
  if ex.1 then
    match VaultStorage.Stat b vs k with
    | (none, sttr) => (none, ex.2 ++ sttr)
    | (some (st, none), sttr) =>
      if now - st.modified > 60 then
        let u := VaultStorage.Unlock b vs k
        let ls := lockSystem b k (vs.buildURL dataURL (some k))
        (some ls.1, ex.2 ++ sttr ++ u.2 ++ ls.2)
      else
        (some (some (StorageErr.msg "Lock already exists")), ex.2 ++ sttr)
    | (some (_, some e), sttr) => (some (some e), ex.2 ++ sttr)
  else
    let ls := lockSystem b k (vs.buildURL dataURL (some k))
    (some ls.1, ex.2 ++ ls.2)

/-!
Helper lemmas and shared concrete inputs for witnesses and counterexamples.
-/

/-- If the needle occurs in the right part of a concatenation it occurs in
the whole. -/
theorem containsSeq_append_right (h1 : List Char) {h2 needle : List Char}
    (h : containsSeq h2 needle = true) : containsSeq (h1 ++ h2) needle = true := by
  induction h1 with
  | nil => simpa using h
  | cons c t ih =>
    simp only [List.cons_append, containsSeq, Bool.or_eq_true]
    exact Or.inr ih

/-- Appending `".lock"` always produces a string that contains `".lock"`,
so `Unlock` never appends the suffix twice. -/
theorem strContains_append_lock (k : String) :
    strContains (k ++ ".lock") ".lock" = true := by
  have hdata : (k ++ ".lock").data = k.data ++ ".lock".data := by
    simp [String.data_append]
  rw [strContains, hdata]
  exact containsSeq_append_right k.data (by decide)

/-- Appending a key to the keyless URL gives the keyed URL (the source's
variadic `buildURL` reached through `queryPath`, versus the direct keyed
calls). -/
theorem buildURL_none_append (vs : VaultStorage) (u k : String) :
    vs.buildURL u none ++ k = vs.buildURL u (some k) := rfl

/-- `optionMapList` succeeds when every element does. -/
theorem optionMapList_isSome {α β : Type} (f : α → Option β) :
    ∀ l : List α, (∀ a ∈ l, (f a).isSome) → (optionMapList f l).isSome := by
  intro l
  induction l with
  | nil => intro _; simp [optionMapList]
  | cons a t ih =>
    intro h
    obtain ⟨b, hb⟩ := Option.isSome_iff_exists.mp (h a (by simp))
    obtain ⟨bs, hbs⟩ := Option.isSome_iff_exists.mp (ih (fun x hx => h x (by simp [hx])))
    simp [optionMapList, hb, hbs]

/-- A sample adapter configuration: empty address, default store path. -/
def vs0 : VaultStorage := ⟨"", "", ""⟩

/-- A backend response with zero-valued fields. -/
def emptyRes : Result := ⟨⟨[], [], ⟨none, false⟩⟩, []⟩

/-- A backend holding exactly the record written by `Store("k", "v")` (one
payload entry, created at Unix time 0, not destroyed) and nothing else. -/
def bStored : Backend :=
  ⟨fun u => if u = "/v1/caddycerts/data/k" then
      ⟨⟨[("k", JValue.str "v")], [], ⟨some 0, false⟩⟩, []⟩
    else emptyRes,
   fun _ => emptyRes, fun _ _ => (emptyRes, none), fun _ => (emptyRes, none)⟩

/-- A backend whose record at key `"k"` has a non-empty payload but carries
`destroyed = true`. -/
def bDestroyed : Backend :=
  ⟨fun u => if u = "/v1/caddycerts/data/k" then
      ⟨⟨[("k", JValue.str "v")], [], ⟨some 0, true⟩⟩, []⟩
    else emptyRes,
   fun _ => emptyRes, fun _ _ => (emptyRes, none), fun _ => (emptyRes, none)⟩

/-- A backend holding a lock record for key `"k"` created at Unix time 100,
whose delete call reports a backend error (used to show `Lock` ignores the
outcome of its forced `Unlock`). -/
def bLocked : Backend :=
  ⟨fun u => if u = "/v1/caddycerts/data/k.lock" then
      ⟨⟨[("k.lock", JValue.str "locked")], [], ⟨some 100, false⟩⟩, []⟩
    else emptyRes,
   fun _ => emptyRes, fun _ _ => (emptyRes, none),
   fun _ => (⟨⟨[], [], ⟨none, false⟩⟩, ["delete refused"]⟩, none)⟩

/-- A backend whose every call reports the error string `"boom"` with
otherwise zero-valued fields, as §4.1 prescribes for HTTP failures. -/
def bErr : Backend :=
  ⟨fun _ => ⟨⟨[], [], ⟨none, false⟩⟩, ["boom"]⟩,
   fun _ => ⟨⟨[], [], ⟨none, false⟩⟩, ["boom"]⟩,
   fun _ _ => (⟨⟨[], [], ⟨none, false⟩⟩, ["boom"]⟩, none),
   fun _ => (⟨⟨[], [], ⟨none, false⟩⟩, ["boom"]⟩, none)⟩

/-!
Claim theorems.
-/

/-- C4: for every prefix and either value of the recursive flag, whenever
`List` returns, it reports `os.ErrNotExist` exactly when the computed key
sequence is empty, and a non-empty sequence is returned with no error — an
empty sequence is never a success. -/
theorem list_notfound_iff_empty (b : Backend) (fuel : Nat) (vs : VaultStorage)
    (pfx : String) (recursive : Bool) (l : List String) (e : Option StorageErr)
    (h : (VaultStorage.List b fuel vs pfx recursive).1 = some (l, e)) :
    (e = some StorageErr.notExist ↔ l = []) ∧ (l ≠ [] → e = none) := by
  unfold VaultStorage.List at h
  rcases hx : (if recursive then
                 listPath b fuel (vs.buildURL metaURL none) (vs.buildURL dataURL none) pfx
               else
                 some (queryPath b (vs.buildURL dataURL none) pfx)) with _ | ⟨l2, tr⟩
  · rw [hx] at h; simp at h
  · rw [hx] at h
    simp only [Option.some.injEq, Prod.mk.injEq] at h
    obtain ⟨h1, h2⟩ := h
    by_cases hc : l2.length = 0
    · rw [if_pos hc] at h2
      have hnil : l = [] := by
        rw [← h1]
        exact List.length_eq_zero.mp hc
      rw [← h2]
      simp [hnil]
    · rw [if_neg hc] at h2
      have hne : l ≠ [] := by
        intro hh
        rw [← h1] at hh
        exact hc (by simp [hh])
      rw [← h2]
      simp [hne]

/-- Witness for C4 at a concrete empty prefix. -/
theorem list_notfound_iff_empty_witness :
    (VaultStorage.List bStored 0 vs0 "absent" false).1 = some ([], some StorageErr.notExist) ∧
    (some StorageErr.notExist = some StorageErr.notExist ↔ ([] : List String) = []) :=
  ⟨rfl, (list_notfound_iff_empty bStored 0 vs0 "absent" false [] (some StorageErr.notExist)
    rfl).1⟩

/-- C3 counterexample: at backend `bDestroyed` the record for key `"k"` has
a non-empty payload and `destroyed = true` — absent under the §3 presence
rule — yet `Load` returns the payload successfully instead of a not-found
error: `Load` never consults the destroyed flag. -/
theorem load_destroyed_cex :
    (bDestroyed.query (vs0.buildURL dataURL (some "k"))).data.metadata.destroyed = true ∧
    (bDestroyed.query (vs0.buildURL dataURL (some "k"))).data.data ≠ [] ∧
    (VaultStorage.Load bDestroyed vs0 "k").1 = some (Except.ok "v") :=
  ⟨rfl, by decide, rfl⟩

/-- C3 (amended): `Load` returns a not-found error exactly when the record's
payload mapping is empty — the destroyed flag is not consulted — and when
the non-empty payload maps the key name to a string `s`, it returns `s`. -/
theorem load_notfound_iff_empty_payload (b : Backend) (vs : VaultStorage) (key : String) :
    ((VaultStorage.Load b vs key).1 = some (Except.error StorageErr.notExist) ↔
      (b.query (vs.buildURL dataURL (some key))).data.data = []) ∧
    (∀ s, (b.query (vs.buildURL dataURL (some key))).data.data.lookup key =
        some (JValue.str s) →
      (VaultStorage.Load b vs key).1 = some (Except.ok s)) := by
  constructor
  · by_cases hc : (b.query (vs.buildURL dataURL (some key))).data.data.length = 0
    · simp [VaultStorage.Load, hc, List.length_eq_zero.mp hc]
    · have hne : (b.query (vs.buildURL dataURL (some key))).data.data ≠ [] := by
        intro hh; exact hc (by simp [hh])
      simp only [VaultStorage.Load, if_neg hc]
      constructor
      · intro he
        rcases hlk : (b.query (vs.buildURL dataURL (some key))).data.data.lookup key
          with _ | v
        · rw [hlk] at he; simp at he
        · rcases v with s | _
          · rw [hlk] at he; simp at he
          · rw [hlk] at he; simp at he
      · intro hh; exact absurd hh hne
  · intro s hs
    have hne2 : (b.query (vs.buildURL dataURL (some key))).data.data ≠ [] := by
      intro hh
      rw [hh] at hs
      simp [List.lookup] at hs
    simp [VaultStorage.Load, hne2, hs]

/-- Witness for the amended C3 at a concrete stored record. -/
theorem load_notfound_iff_empty_payload_witness :
    (VaultStorage.Load bStored vs0 "k").1 = some (Except.ok "v") :=
  (load_notfound_iff_empty_payload bStored vs0 "k").2 "v" rfl

/-- C7 counterexample: the key `"a.lockb"` does not carry the `".lock"`
suffix, yet `Unlock "a.lockb"` deletes the record at `"a.lockb"` itself —
because `".lock"` occurs as an inner substring — not at `"a.lockb.lock"`;
consequently `Unlock k` and `Unlock (k ++ ".lock")` delete different
records. -/
theorem unlock_suffix_cex :
    ".lock".data.isSuffixOf "a.lockb".data = false ∧
    (VaultStorage.Unlock bStored vs0 "a.lockb").2 =
      [VAction.deleteStore (vs0.buildURL metaURL (some "a.lockb"))] ∧
    (VaultStorage.Unlock bStored vs0 ("a.lockb" ++ ".lock")).2 =
      [VAction.deleteStore (vs0.buildURL metaURL (some "a.lockb.lock"))] ∧
    vs0.buildURL metaURL (some "a.lockb") ≠ vs0.buildURL metaURL (some "a.lockb.lock") :=
  ⟨by decide, rfl, rfl, by decide⟩

/-- C7 (amended): `Unlock`'s normalization tests whether `".lock"` occurs
anywhere in the key (`strings.Index`), not whether it is a suffix: when
`".lock"` occurs nowhere in `k`, `Unlock k` deletes the record at
`k ++ ".lock"` and agrees with `Unlock (k ++ ".lock")`; when `".lock"`
occurs in `k` — as a suffix or not — `Unlock k` deletes the record at `k`
itself. -/
theorem unlock_normalization (b : Backend) (vs : VaultStorage) (key : String) :
    (strContains key ".lock" = true →
       VaultStorage.Unlock b vs key = VaultStorage.Delete b vs key) ∧
    (strContains key ".lock" = false →
       VaultStorage.Unlock b vs key = VaultStorage.Delete b vs (key ++ ".lock") ∧
       VaultStorage.Unlock b vs key = VaultStorage.Unlock b vs (key ++ ".lock")) := by
  constructor
  · intro h
    simp [VaultStorage.Unlock, h]
  · intro h
    constructor
    · simp [VaultStorage.Unlock, h]
    · simp [VaultStorage.Unlock, h, strContains_append_lock key]

/-- Witness for the amended C7, discharging both branches at concrete
keys. -/
theorem unlock_normalization_witness :
    (VaultStorage.Unlock bStored vs0 "x.lock" = VaultStorage.Delete bStored vs0 "x.lock") ∧
    (VaultStorage.Unlock bStored vs0 "a" = VaultStorage.Delete bStored vs0 ("a" ++ ".lock")) :=
  ⟨(unlock_normalization bStored vs0 "x.lock").1 rfl,
   ((unlock_normalization bStored vs0 "a").2 rfl).1⟩

/-- C9: `Load` returns without panicking exactly when the record's payload
mapping is empty or maps the key name itself to a string; `Stat` returns
without panicking exactly when the payload maps the key name to a string —
both extract the payload by the unchecked cast `res.Data.Data[key].(string)`,
so `Stat` on a key with no record, and `Load` on a non-empty payload with no
entry named by the key, panic (embedded as `none`). -/
theorem load_stat_totality (b : Backend) (vs : VaultStorage) (key : String) :
    ((VaultStorage.Load b vs key).1.isSome = true ↔
       ((b.query (vs.buildURL dataURL (some key))).data.data = [] ∨
        ∃ s, (b.query (vs.buildURL dataURL (some key))).data.data.lookup key =
          some (JValue.str s))) ∧
    ((VaultStorage.Stat b vs key).1.isSome = true ↔
       ∃ s, (b.query (vs.buildURL dataURL (some key))).data.data.lookup key =
         some (JValue.str s)) := by
  constructor
  · by_cases hc : (b.query (vs.buildURL dataURL (some key))).data.data.length = 0
    · simp [VaultStorage.Load, hc, List.length_eq_zero.mp hc]
    · have hne : (b.query (vs.buildURL dataURL (some key))).data.data ≠ [] := by
        intro hh; exact hc (by simp [hh])
      simp only [VaultStorage.Load, if_neg hc]
      rcases hlk : (b.query (vs.buildURL dataURL (some key))).data.data.lookup key
        with _ | v
      · simp [hlk, hne]
      · rcases v with s | _
        · simp [hlk]
        · simp [hlk, hne]
  · rcases hlk : (b.query (vs.buildURL dataURL (some key))).data.data.lookup key
      with _ | v
    · simp [VaultStorage.Stat, VaultStorage.List, queryPath, hlk]
    · rcases v with s | _
      · simp [VaultStorage.Stat, VaultStorage.List, queryPath, hlk]
      · simp [VaultStorage.Stat, VaultStorage.List, queryPath, hlk]

/-- C6: `Store k v` performs exactly one plain write (no create-only
option) of `{data: {k: v}}` at `k`'s data path, and when the backend then
returns that written record on read, `Load k` returns exactly `v`. -/
theorem store_load_roundtrip (b : Backend) (vs : VaultStorage) (k v : String)
    (hread : (b.query (vs.buildURL dataURL (some k))).data.data = [(k, JValue.str v)]) :
    (VaultStorage.Store b vs k v).2 =
      [VAction.loadStore (vs.buildURL dataURL (some k)) ⟨none, [(k, v)]⟩] ∧
    (VaultStorage.Load b vs k).1 = some (Except.ok v) := by
  constructor
  · rfl
  · simp [VaultStorage.Load, hread, List.lookup]

/-- Witness for C6 at the concrete stored record. -/
theorem store_load_roundtrip_witness :
    (VaultStorage.Store bStored vs0 "k" "v").2 =
      [VAction.loadStore (vs0.buildURL dataURL (some "k")) ⟨none, [("k", "v")]⟩] ∧
    (VaultStorage.Load bStored vs0 "k").1 = some (Except.ok "v") :=
  store_load_roundtrip bStored vs0 "k" "v" rfl

/-- C2: evaluation at the failing input.  At backend `bStored` the key
`"k"` holds exactly the record written by `Store "k" "v"` and has no deeper
children, yet `Stat` returns `isTerminal = false` (with `size = 1`): the
non-recursive `List` check runs at the key itself, not at its children, so
`err == os.ErrNotExist` is false for every stored key and `isTerminal` can
never be true for one, contradicting the claimed `isTerminal == true`. -/
theorem stat_isTerminal_bug :
    (bStored.query (vs0.buildURL dataURL (some "k"))).data.data = [("k", JValue.str "v")] ∧
    (bStored.listStore (vs0.buildURL metaURL (some "k"))).data.keys = [] ∧
    (VaultStorage.Stat bStored vs0 "k").1 = some (⟨"k", false, 1, 0⟩, none) :=
  ⟨rfl, rfl, rfl⟩

/-- C1: the lock key is `key ++ ".lock"`, and `Lock` implements the
three-way state machine.  (1) Unlocked — record absent under the §3 rule
(empty payload or destroyed): `Lock` performs exactly the create-only
(`cas 0`) write of the lock record and succeeds when the backend reports no
errors.  (2) Stale — record present, not destroyed, readable, with
`now - created > 60`: `Lock` deletes the stale record, then performs the
fresh create-only write, succeeding when the backend reports no errors.
(3) Fresh — record present with `now - created ≤ 60`: `Lock` fails with the
"Lock already exists" error and performs no write or delete at all. -/
theorem lock_protocol (b : Backend) (now : Int) (vs : VaultStorage) (key s : String)
    (t : Int) :
    (((b.query (vs.buildURL dataURL (some (key ++ ".lock")))).data.data = [] ∨
      (b.query (vs.buildURL dataURL (some (key ++ ".lock")))).data.metadata.destroyed
        = true) →
      (VaultStorage.Lock b now vs key =
        (some (lockSystem b (key ++ ".lock")
                 (vs.buildURL dataURL (some (key ++ ".lock")))).1,
         [VAction.queryStore (vs.buildURL dataURL (some (key ++ ".lock"))),
          VAction.loadStore (vs.buildURL dataURL (some (key ++ ".lock")))
            ⟨some ⟨0⟩, [(key ++ ".lock", "locked")]⟩]) ∧
       ((b.loadStore (vs.buildURL dataURL (some (key ++ ".lock")))
           ⟨some ⟨0⟩, [(key ++ ".lock", "locked")]⟩).1.errors = [] →
        (b.loadStore (vs.buildURL dataURL (some (key ++ ".lock")))
           ⟨some ⟨0⟩, [(key ++ ".lock", "locked")]⟩).2 = none →
        (VaultStorage.Lock b now vs key).1 = some none))) ∧
    ((b.query (vs.buildURL dataURL (some (key ++ ".lock")))).data.data ≠ [] →
     (b.query (vs.buildURL dataURL (some (key ++ ".lock")))).data.metadata.destroyed
       = false →
     (b.query (vs.buildURL dataURL (some (key ++ ".lock")))).data.data.lookup
       (key ++ ".lock") = some (JValue.str s) →
     (b.query (vs.buildURL dataURL (some (key ++ ".lock")))).data.metadata.createdTime
       = some t →
     ((now - t > 60 →
        (VaultStorage.Lock b now vs key =
          (some (lockSystem b (key ++ ".lock")
                   (vs.buildURL dataURL (some (key ++ ".lock")))).1,
           [VAction.queryStore (vs.buildURL dataURL (some (key ++ ".lock"))),
            VAction.queryStore (vs.buildURL dataURL (some (key ++ ".lock"))),
            VAction.queryStore (vs.buildURL dataURL (some (key ++ ".lock"))),
            VAction.deleteStore (vs.buildURL metaURL (some (key ++ ".lock"))),
            VAction.loadStore (vs.buildURL dataURL (some (key ++ ".lock")))
              ⟨some ⟨0⟩, [(key ++ ".lock", "locked")]⟩]) ∧
         ((b.loadStore (vs.buildURL dataURL (some (key ++ ".lock")))
             ⟨some ⟨0⟩, [(key ++ ".lock", "locked")]⟩).1.errors = [] →
          (b.loadStore (vs.buildURL dataURL (some (key ++ ".lock")))
             ⟨some ⟨0⟩, [(key ++ ".lock", "locked")]⟩).2 = none →
          (VaultStorage.Lock b now vs key).1 = some none))) ∧
      (now - t ≤ 60 →
        VaultStorage.Lock b now vs key =
          (some (some (StorageErr.msg "Lock already exists")),
           [VAction.queryStore (vs.buildURL dataURL (some (key ++ ".lock"))),
            VAction.queryStore (vs.buildURL dataURL (some (key ++ ".lock"))),
            VAction.queryStore (vs.buildURL dataURL (some (key ++ ".lock")))]) ∧
        (VaultStorage.Lock b now vs key).2.all (fun a => !a.isWrite) = true))) := by
  constructor
  · intro h
    have hEx : (VaultStorage.Exists b vs (key ++ ".lock")).1 = false := by
      rcases h with hd | hdes
      · simp [VaultStorage.Exists, hd]
      · simp [VaultStorage.Exists, hdes]
    constructor
    · simp only [VaultStorage.Lock, hEx, Bool.false_eq_true, if_false]
      simp [VaultStorage.Exists, lockSystem]
    · intro he ht
      simp only [VaultStorage.Lock, hEx, Bool.false_eq_true, if_false]
      simp [lockSystem, he, ht]
  · intro hne hdes hlook htime
    have hlen : ¬ (b.query (vs.buildURL dataURL
        (some (key ++ ".lock")))).data.data.length = 0 := by
      intro hc
      exact hne (List.length_eq_zero.mp hc)
    have hEx : (VaultStorage.Exists b vs (key ++ ".lock")).1 = true := by
      simp [VaultStorage.Exists, hdes, Nat.pos_of_ne_zero hlen]
    have hstat : VaultStorage.Stat b vs (key ++ ".lock") =
        (some (⟨key ++ ".lock", false, s.utf8ByteSize, t⟩, none),
         [VAction.queryStore (vs.buildURL dataURL (some (key ++ ".lock"))),
          VAction.queryStore (vs.buildURL dataURL (some (key ++ ".lock")))]) := by
      simp only [VaultStorage.Stat, VaultStorage.List, queryPath, buildURL_none_append]
      rw [hlook, htime]
      have hmap : ¬ ((b.query (vs.buildURL dataURL
          (some (key ++ ".lock")))).data.data.map Prod.fst).length = 0 := by
        simpa using hlen
      simp [hmap]
      exact hne
    constructor
    · intro hstale
      constructor
      · simp only [VaultStorage.Lock, hEx, if_true, hstat]
        rw [if_pos hstale]
        simp [VaultStorage.Exists, VaultStorage.Unlock, VaultStorage.Delete,
          strContains_append_lock, lockSystem]
      · intro he ht
        simp only [VaultStorage.Lock, hEx, if_true, hstat]
        rw [if_pos hstale]
        simp [lockSystem, he, ht]
    · intro hfresh
      have hnot : ¬ (now - t > 60) := not_lt.mpr hfresh
      constructor
      · simp only [VaultStorage.Lock, hEx, if_true, hstat]
        rw [if_neg hnot]
        simp [VaultStorage.Exists]
      · simp only [VaultStorage.Lock, hEx, if_true, hstat]
        rw [if_neg hnot]
        simp [VaultStorage.Exists, VAction.isWrite]

/-- Witness for C1, exercising all three lock states at concrete inputs:
no lock record (`bStored`, key `"nolock"`), a fresh lock record
(`bLocked`, created at 100, now 130), and a stale one (now 200). -/
theorem lock_protocol_witness :
    (VaultStorage.Lock bStored 0 vs0 "nolock").1 = some none ∧
    (VaultStorage.Lock bLocked 130 vs0 "k").1 =
      some (some (StorageErr.msg "Lock already exists")) ∧
    (VaultStorage.Lock bLocked 200 vs0 "k").1 = some none := by
  refine ⟨?_, ?_, ?_⟩
  · exact ((lock_protocol bStored 0 vs0 "nolock" "" 0).1 (Or.inl rfl)).2 rfl rfl
  · have h := ((lock_protocol bLocked 130 vs0 "k" "locked" 100).2 (by decide) rfl rfl
      rfl).2 (by decide)
    rw [h.1]
  · exact (((lock_protocol bLocked 200 vs0 "k" "locked" 100).2 (by decide) rfl rfl
      rfl).1 (by decide)).2 rfl rfl

/-- C10: in the stale-takeover path, `Lock` discards the result of the
forced `Unlock` and proceeds to the create-only write unconditionally: its
returned value is exactly the `lockSystem` result of the final write, and it
is unchanged under any replacement of the backend's delete behaviour (so a
failed deletion of the stale record is never reported). -/
theorem lock_stale_ignores_delete (b b2 : Backend) (now : Int) (vs : VaultStorage)
    (key s : String) (t : Int)
    (hq : b2.query = b.query) (hw : b2.loadStore = b.loadStore)
    (hne : (b.query (vs.buildURL dataURL (some (key ++ ".lock")))).data.data ≠ [])
    (hdes : (b.query (vs.buildURL dataURL
        (some (key ++ ".lock")))).data.metadata.destroyed = false)
    (hlook : (b.query (vs.buildURL dataURL (some (key ++ ".lock")))).data.data.lookup
        (key ++ ".lock") = some (JValue.str s))
    (htime : (b.query (vs.buildURL dataURL
        (some (key ++ ".lock")))).data.metadata.createdTime = some t)
    (hstale : now - t > 60) :
    (VaultStorage.Lock b now vs key).1 =
      some ((lockSystem b (key ++ ".lock")
              (vs.buildURL dataURL (some (key ++ ".lock")))).1) ∧
    (VaultStorage.Lock b2 now vs key).1 = (VaultStorage.Lock b now vs key).1 := by
  have h1 := (((lock_protocol b now vs key s t).2 hne hdes hlook htime).1 hstale).1
  have hne2 : (b2.query (vs.buildURL dataURL (some (key ++ ".lock")))).data.data ≠ [] := by
    rw [hq]; exact hne
  have h2 := (((lock_protocol b2 now vs key s t).2 hne2 (by rw [hq]; exact hdes)
    (by rw [hq]; exact hlook) (by rw [hq]; exact htime)).1 hstale).1
  constructor
  · rw [h1]
  · rw [h1, h2]
    simp [lockSystem, hw]

/-- C5: whenever the backend reports error strings for the call underlying
an operation, the write-type operations — `Store`, `Delete` (hence
`Unlock`), `lockSystem` (hence `Lock`'s write) — return an error carrying
the first reported message verbatim, wrapped with minimal context; for the
read-type calls the §4.1 zero-valued response makes the §3 empty-means-
absent rule apply, and `Load`, `Exists` and non-recursive `List` report
absence instead of surfacing the message. -/
theorem backend_errors_surfaced (b : Backend) (vs : VaultStorage) (key value e : String)
    (es : List String) :
    ((b.loadStore (vs.buildURL dataURL (some key)) ⟨none, [(key, value)]⟩).1.errors
        = e :: es →
      (VaultStorage.Store b vs key value).1 =
        some (StorageErr.msg ("Failed to store, error: " ++ e))) ∧
    ((b.deleteStore (vs.buildURL metaURL (some key))).1.errors = e :: es →
      (VaultStorage.Delete b vs key).1 =
        some (StorageErr.msg ("Failed to delete" ++ e))) ∧
    ((b.loadStore (vs.buildURL dataURL (some key))
        ⟨some ⟨0⟩, [(key, "locked")]⟩).1.errors = e :: es →
      (lockSystem b key (vs.buildURL dataURL (some key))).1 =
        some (StorageErr.msg ("Failed to lock: " ++ e))) ∧
    ((b.query (vs.buildURL dataURL (some key))).errors = e :: es →
     (b.query (vs.buildURL dataURL (some key))).data = ⟨[], [], ⟨none, false⟩⟩ →
      (VaultStorage.Load b vs key).1 = some (Except.error StorageErr.notExist) ∧
      (VaultStorage.Exists b vs key).1 = false ∧
      (VaultStorage.List b 0 vs key false).1 = some ([], some StorageErr.notExist)) := by
  refine ⟨?_, ?_, ?_, ?_⟩
  · intro h
    simp [VaultStorage.Store, h]
  · intro h
    simp [VaultStorage.Delete, h]
  · intro h
    simp [lockSystem, h]
  · intro _ hzero
    refine ⟨?_, ?_, ?_⟩
    · simp [VaultStorage.Load, hzero]
    · simp [VaultStorage.Exists, hzero]
    · simp [VaultStorage.List, queryPath, buildURL_none_append, hzero]

/-- Witness for C5 at the all-errors backend `bErr`. -/
theorem backend_errors_surfaced_witness :
    (VaultStorage.Store bErr vs0 "k" "v").1 =
      some (StorageErr.msg ("Failed to store, error: " ++ "boom")) ∧
    (VaultStorage.Delete bErr vs0 "k").1 =
      some (StorageErr.msg ("Failed to delete" ++ "boom")) ∧
    (lockSystem bErr "k" (vs0.buildURL dataURL (some "k"))).1 =
      some (StorageErr.msg ("Failed to lock: " ++ "boom")) ∧
    (VaultStorage.Load bErr vs0 "k").1 = some (Except.error StorageErr.notExist) ∧
    (VaultStorage.Exists bErr vs0 "k").1 = false := by
  have h := backend_errors_surfaced bErr vs0 "k" "v" "boom" []
  exact ⟨h.1 rfl, h.2.1 rfl, h.2.2.1 rfl, (h.2.2.2 rfl rfl).1, (h.2.2.2 rfl rfl).2.1⟩

/-- A finite strict tree of path segments: the shape the spec assumes for
the backend's metadata hierarchy. -/
inductive MTree where
  | node : List (String × MTree) → MTree

mutual
/-- Height of a tree: one plus the maximum height of its children. -/
def MTree.height : MTree → Nat
  | .node cs => 1 + heightList cs

/-- Maximum height over a list of labelled children. -/
def heightList : List (String × MTree) → Nat
  | [] => 0
  | p :: ps => max (MTree.height p.2) (heightList ps)
end

/-- The child-listing view `lc` realizes the finite tree `t` at path
`base`: listing `base` returns exactly the child segment names of `t`, and
recursively each child subtree is realized at `base ++ "/" ++ name` — the
path scheme `listPath` uses when it descends. -/
inductive Represents (lc : String → List String) : String → MTree → Prop where
  | node : ∀ (base : String) (cs : List (String × MTree)),
      lc base = cs.map Prod.fst →
      (∀ p ∈ cs, Represents lc (base ++ "/" ++ p.1) p.2) →
      Represents lc base (MTree.node cs)

/-- A child's height is bounded by the children's maximum. -/
theorem height_child_le (cs : List (String × MTree)) (p : String × MTree) (hp : p ∈ cs) :
    p.2.height ≤ heightList cs := by
  induction cs with
  | nil => cases hp
  | cons q qs ih =>
    rcases List.mem_cons.mp hp with h | h
    · rw [h, heightList]
      exact le_max_left _ _
    · rw [heightList]
      exact le_trans (ih h) (le_max_right _ _)

/-- C8: `listPath` terminates on every backend whose metadata hierarchy is
a finite strict tree.  Each recursive call descends one level via a child
segment returned by the listing call, and any fuel of at least the tree's
height suffices for the recursion to end (at leaves the listing returns no
segments), with no cycle guard or visited-set. -/
theorem listPath_terminates (b : Backend) (t : MTree) (base : String)
    (hrep : Represents (fun u => (b.listStore u).data.keys) base t) :
    ∀ (fuel : Nat) (listurl loadurl pfx : String), base = listurl ++ pfx →
      t.height ≤ fuel → (listPath b fuel listurl loadurl pfx).isSome := by
  induction hrep with
  | node base cs hkeys hchild ih =>
    intro fuel listurl loadurl pfx hbase hfuel
    cases fuel with
    | zero =>
      exfalso
      rw [MTree.height] at hfuel
      omega
    | succ f =>
      have hkeys2 : (b.listStore (listurl ++ pfx)).data.keys = cs.map Prod.fst := by
        rw [← hbase]
        simpa using hkeys
      have hall : ∀ path ∈ cs.map Prod.fst,
          (listPath b f (listurl ++ pfx) (loadurl ++ pfx) ("/" ++ path)).isSome := by
        intro path hpath
        obtain ⟨p, hp, hpeq⟩ := List.mem_map.mp hpath
        have hbase2 : base ++ "/" ++ p.1 = (listurl ++ pfx) ++ ("/" ++ p.1) := by
          rw [hbase, String.append_assoc]
        have hht : p.2.height ≤ f := by
          have h1 := height_child_le cs p hp
          rw [MTree.height] at hfuel
          omega
        rw [← hpeq]
        exact ih p hp f (listurl ++ pfx) (loadurl ++ pfx) ("/" ++ p.1) hbase2 hht
      obtain ⟨rest, hrest⟩ := Option.isSome_iff_exists.mp
        (optionMapList_isSome _ (cs.map Prod.fst) hall)
      simp only [listPath]
      rw [hkeys2, hrest]
      simp

/-- A backend whose metadata hierarchy is the two-level tree with a single
child segment `"a"` below `"m"`. -/
def bTreeW : Backend :=
  ⟨fun _ => emptyRes,
   fun u => ⟨⟨[], if u = "m" then ["a"] else [], ⟨none, false⟩⟩, []⟩,
   fun _ _ => (emptyRes, none), fun _ => (emptyRes, none)⟩

/-- Witness for C8 at the concrete two-level tree backend. -/
theorem listPath_terminates_witness :
    MTree.height (MTree.node [("a", MTree.node [])]) ≤ 2 ∧
    (listPath bTreeW 2 "" "" "m").isSome = true := by
  have hrep : Represents (fun u => (bTreeW.listStore u).data.keys) "m"
      (MTree.node [("a", MTree.node [])]) := by
    apply Represents.node
    · rfl
    · intro p hp
      have hp2 : p = ("a", MTree.node []) := by
        simpa using hp
      subst hp2
      apply Represents.node
      · rfl
      · intro q hq
        exact absurd hq (List.not_mem_nil q)
  have hh : MTree.height (MTree.node [("a", MTree.node [])]) ≤ 2 := by
    simp [MTree.height, heightList]
  exact ⟨hh, listPath_terminates bTreeW _ "m" hrep 2 "" "" "m" rfl hh⟩

/-- The backend `bLocked` with the delete failure removed, otherwise
identical (same reads the same writes). -/
def bLockedOk : Backend :=
  ⟨bLocked.query, bLocked.listStore, bLocked.loadStore, fun _ => (emptyRes, none)⟩

/-- Witness for C10: at `bLocked` the stale takeover's forced delete is
refused by the backend, yet `Lock` succeeds, and its result agrees with the
one at `bLockedOk`, where the delete succeeds. -/
theorem lock_stale_ignores_delete_witness :
    (VaultStorage.Lock bLocked 200 vs0 "k").1 = some none ∧
    (VaultStorage.Lock bLockedOk 200 vs0 "k").1 = (VaultStorage.Lock bLocked 200 vs0 "k").1 ∧
    (VaultStorage.Delete bLocked vs0 ("k" ++ ".lock")).1 =
      some (StorageErr.msg ("Failed to delete" ++ "delete refused")) := by
  have h := lock_stale_ignores_delete bLocked bLockedOk 200 vs0 "k" "locked" 100
    rfl rfl (by decide) rfl rfl rfl (by decide)
  refine ⟨?_, h.2, rfl⟩
  rw [h.1]
  rfl
